import Mathlib

/-!
Shallow embedding of the calculation core of the MarekNBAnalitics dashboard:

* `calculateKelly`            — src/src/components/Form.tsx (BettingRecommendations), lines 204-237
* `getConsensus`              — src/src/components/LiveOdds.tsx, lines 176-189
* display cells for consensus — src/src/components/LiveOdds.tsx, lines 484-520
* `filteredAndSortedTeams`    — src/src/components/AllTeams.tsx, lines 144-189

JavaScript numbers are modelled by `JSNum`: exact rationals plus the IEEE
special values NaN and ±Infinity (negative zero is identified with zero,
and rounding error is ignored: every claim under study concerns exact
closed-form arithmetic, branch structure, and special-value propagation).
-/

namespace NBA

/-- A JavaScript number: NaN, a signed infinity (`inf true` is `+Infinity`),
or a finite value modelled as an exact rational. -/
inductive JSNum where
  | nan : JSNum
  | inf : Bool → JSNum
  | num : ℚ → JSNum
deriving DecidableEq

namespace JSNum

/-- The `isNaN` test. -/
def isNaN : JSNum → Bool
  | nan => true
  | _ => false

/-- IEEE negation. -/
def jneg : JSNum → JSNum
  | nan => nan
  | inf s => inf (!s)
  | num a => num (-a)

/-- IEEE addition (`+` on JS numbers). -/
def jadd : JSNum → JSNum → JSNum
  | nan, _ => nan
  | _, nan => nan
  | inf s, inf t => if s = t then inf s else nan
  | inf s, num _ => inf s
  | num _, inf t => inf t
  | num a, num b => num (a + b)

/-- IEEE subtraction (`-` on JS numbers). -/
def jsub (x y : JSNum) : JSNum := jadd x (jneg y)

/-- IEEE multiplication (`*` on JS numbers). -/
def jmul : JSNum → JSNum → JSNum
  | nan, _ => nan
  | _, nan => nan
  | inf s, inf t => inf (s = t)
  | inf s, num b => if b = 0 then nan else inf (s = decide (0 < b))
  | num a, inf t => if a = 0 then nan else inf (t = decide (0 < a))
  | num a, num b => num (a * b)

/-- IEEE division (`/` on JS numbers); zero is treated as `+0`. -/
def jdiv : JSNum → JSNum → JSNum
  | nan, _ => nan
  | _, nan => nan
  | inf _, inf _ => nan
  | inf s, num b => if b = 0 then inf s else inf (s = decide (0 < b))
  | num _, inf _ => num 0
  | num a, num b =>
    if b = 0 then (if a = 0 then nan else inf (decide (0 < a))) else num (a / b)

/-- The JS `<` comparison (false whenever either side is NaN). -/
def jlt : JSNum → JSNum → Bool
  | nan, _ => false
  | _, nan => false
  | inf s, inf t => !s && t
  | inf s, num _ => !s
  | num _, inf t => t
  | num a, num b => decide (a < b)

/-- The JS `<=` comparison (false whenever either side is NaN). -/
def jle : JSNum → JSNum → Bool
  | nan, _ => false
  | _, nan => false
  | inf s, inf t => s = t || (!s && t)
  | inf s, num _ => !s
  | num _, inf t => t
  | num a, num b => decide (a ≤ b)

/-- JS `Math.abs`. -/
def jabs : JSNum → JSNum
  | nan => nan
  | inf _ => inf true
  | num a => num |a|

/-- JS truthiness of a number: false for NaN and 0, true otherwise. -/
def jtruthy : JSNum → Bool
  | nan => false
  | inf _ => true
  | num a => decide (a ≠ 0)

/-- JS `Math.round`: half-up toward positive infinity on finite values. -/
def jround : JSNum → JSNum
  | nan => nan
  | inf s => inf s
  | num a => num (⌊a + 1/2⌋ : ℤ)

/-- Two-argument core of `Math.min`: NaN-propagating minimum. -/
def jmin2 (x y : JSNum) : JSNum :=
  if x.isNaN || y.isNaN then nan else if jlt y x then y else x

/-- Two-argument core of `Math.max`: NaN-propagating maximum. -/
def jmax2 (x y : JSNum) : JSNum :=
  if x.isNaN || y.isNaN then nan else if jlt x y then y else x

/-- JS `Math.min(...arr)`: fold of `jmin2` starting from `+Infinity`. -/
def jminList (l : List JSNum) : JSNum := l.foldl jmin2 (inf true)

/-- JS `Math.max(...arr)`: fold of `jmax2` starting from `-Infinity`. -/
def jmaxList (l : List JSNum) : JSNum := l.foldl jmax2 (inf false)

/-- Rendering of a JS number as a string; exact for NaN, infinities and
integers (the only values the embedded views ever render through it). -/
def jtoString : JSNum → String
  | nan => "NaN"
  | inf true => "Infinity"
  | inf false => "-Infinity"
  | num a => if a.den = 1 then toString a.num else toString a

/-- JS `Number.prototype.toFixed(1)`: round to one decimal, ties away from zero. -/
def jtoFixed1 : JSNum → String
  | nan => "NaN"
  | inf true => "Infinity"
  | inf false => "-Infinity"
  | num a =>
    let n : ℤ := if 0 ≤ a then ⌊a * 10 + 1/2⌋ else -⌊(-a) * 10 + 1/2⌋
    (if n < 0 then "-" else "") ++ toString (n.natAbs / 10) ++ "." ++ toString (n.natAbs % 10)

end JSNum

open JSNum

/-! ## Kelly staking calculator — Form.tsx (BettingRecommendations) lines 204-237

`calculateKelly` reads the two text inputs through `parseFloat` and the
bankroll state; the embedding takes the three post-parse JS numbers (a
non-numeric text input parses to NaN). -/

/-- The result published through `setKellyResult` on success. -/
structure KellyResult where
  fraction : JSNum
  percentage : JSNum
  stake : JSNum
deriving DecidableEq

/-- American-to-decimal odds conversion, Form.tsx line 214:
`odds > 0 ? (odds / 100) + 1 : (100 / Math.abs(odds)) + 1`. -/
def jsAmerToDecimal (odds : JSNum) : JSNum :=
  if jlt (num 0) odds then jadd (jdiv odds (num 100)) (num 1)
  else jadd (jdiv (num 100) (jabs odds)) (num 1)

/-- Embedding of `calculateKelly`, Form.tsx lines 204-237. `odds` and `probRaw` are the
parsed values of the two inputs (probability entered as a percentage),
`bankroll` the bankroll state; `none` models `setKellyResult(null)`. -/
def calculateKelly (odds probRaw bankroll : JSNum) : Option KellyResult :=
  let prob := jdiv probRaw (num 100)
  if odds.isNaN || prob.isNaN || jle prob (num 0) || jle (num 1) prob then
    none
  else
    let decimalOdds := jsAmerToDecimal odds
    let b := jsub decimalOdds (num 1)
    let q := jsub (num 1) prob
    let kellyFraction := jdiv (jsub (jmul b prob) q) b
    if jle kellyFraction (num 0) then
      some { fraction := num 0, percentage := num 0, stake := num 0 }
    else
      let fractionalKelly := jmul kellyFraction (num (1/4))
      some { fraction := fractionalKelly,
             percentage := jmul fractionalKelly (num 100),
             stake := jmul fractionalKelly bankroll }

/-- The view's negative-expectation flag, Form.tsx lines 454-456: the
"Negative expectation - do not bet" line is rendered exactly when a result
is shown and `kellyResult.fraction === 0`. -/
def kellyShowsDoNotBet : Option KellyResult → Bool
  | none => false
  | some r => decide (r.fraction = num 0)

/-- Mathematical (rational-level) mirror of the odds conversion, used to
state the claims: `a/100 + 1` for positive American odds, `100/|a| + 1`
for negative ones. -/
def amerToDecimal (a : ℚ) : ℚ :=
  if 0 < a then a / 100 + 1 else 100 / |a| + 1

/-- Mathematical mirror of the raw Kelly fraction `(b·p − q)/b` with
`b = decimal − 1`, `q = 1 − p`, used to state the claims. -/
def rawKellyFraction (a p : ℚ) : ℚ :=
  let b := amerToDecimal a - 1
  (b * p - (1 - p)) / b

/-! ## Odds consensus — LiveOdds.tsx lines 176-189 and the consensus cells

A bookmaker quote's `moneyline` / `spread` / `total` sub-objects and their
numeric members may be absent (the upstream payload is untyped JSON and
`getConsensus` accesses them with optional chaining). A member holding a
value of JS type `number` — including NaN or an infinity — is `some x`;
an absent member, or one holding a value of any other JS type (which the
`typeof n === 'number'` filter discards identically), is `none`. -/

/-- The `moneyline` sub-object of a quote. -/
structure MoneylineQ where
  home : Option JSNum
  away : Option JSNum
deriving DecidableEq

/-- The `spread` sub-object of a quote. -/
structure SpreadQ where
  line : Option JSNum
  home : Option JSNum
  away : Option JSNum
deriving DecidableEq

/-- The `total` sub-object of a quote. -/
structure TotalQ where
  line : Option JSNum
  over : Option JSNum
  under : Option JSNum
deriving DecidableEq

/-- One bookmaker quote as consumed by `getConsensus`. -/
structure BookQuote where
  name : String
  moneyline : Option MoneylineQ
  spread : Option SpreadQ
  total : Option TotalQ
deriving DecidableEq

/-- Embedding of `bookmakers.map(b => b.spread?.line).filter(n => typeof n === 'number')`
(LiveOdds.tsx line 177). -/
def spreadVals (bs : List BookQuote) : List JSNum :=
  (bs.map (fun b => b.spread.bind SpreadQ.line)).filterMap id

/-- Embedding of `bookmakers.map(b => b.total?.line).filter(n => typeof n === 'number')`
(LiveOdds.tsx line 178). -/
def totalVals (bs : List BookQuote) : List JSNum :=
  (bs.map (fun b => b.total.bind TotalQ.line)).filterMap id

/-- Embedding of `bookmakers.map(b => b.moneyline?.home).filter(n => typeof n === 'number')`
(LiveOdds.tsx line 179). -/
def mlHomeVals (bs : List BookQuote) : List JSNum :=
  (bs.map (fun b => b.moneyline.bind MoneylineQ.home)).filterMap id

/-- Embedding of `avg = arr => arr.length ? arr.reduce((a, b) => a + b, 0) / arr.length : 0`
(LiveOdds.tsx line 180). -/
def jsAvg (arr : List JSNum) : JSNum :=
  if arr.length ≠ 0 then jdiv (arr.foldl jadd (num 0)) (num arr.length) else num 0

/-- Embedding of `range = arr => arr.length ? [Math.min(...arr), Math.max(...arr)] : undefined`
(LiveOdds.tsx line 181). -/
def jsRange (arr : List JSNum) : Option (JSNum × JSNum) :=
  if arr.length ≠ 0 then some (jminList arr, jmaxList arr) else none

/-- The object returned by `getConsensus` (LiveOdds.tsx lines 182-188); it
carries no range for the moneyline market. -/
structure Consensus where
  spreadAvg : JSNum
  spreadRange : Option (JSNum × JSNum)
  totalAvg : JSNum
  totalRange : Option (JSNum × JSNum)
  mlHomeAvg : JSNum
deriving DecidableEq

/-- Embedding of `getConsensus`, LiveOdds.tsx lines 176-189. -/
def getConsensus (bs : List BookQuote) : Consensus :=
  { spreadAvg := jsAvg (spreadVals bs)
    spreadRange := jsRange (spreadVals bs)
    totalAvg := jsAvg (totalVals bs)
    totalRange := jsRange (totalVals bs)
    mlHomeAvg := jsAvg (mlHomeVals bs) }

/-- The three markets `getConsensus` aggregates. -/
inductive Market where
  | spread : Market
  | total : Market
  | mlHome : Market
deriving DecidableEq

/-- The average the consensus object carries for a market. -/
def consensusAvgOf (c : Consensus) : Market → JSNum
  | .spread => c.spreadAvg
  | .total => c.totalAvg
  | .mlHome => c.mlHomeAvg

/-- The range the consensus object carries for a market; reading the (never
written) moneyline range off the returned object yields `undefined`. -/
def consensusRangeOf (c : Consensus) : Market → Option (JSNum × JSNum)
  | .spread => c.spreadRange
  | .total => c.totalRange
  | .mlHome => none

/-- The filtered value list for a market. -/
def marketVals (bs : List BookQuote) : Market → List JSNum
  | .spread => spreadVals bs
  | .total => totalVals bs
  | .mlHome => mlHomeVals bs

/-- Embedding of `formatOdds` (LiveOdds.tsx lines 149-151):
`odds > 0 ? '+' + odds : '' + odds`. -/
def formatOdds (odds : JSNum) : String :=
  if jlt (num 0) odds then "+" ++ jtoString odds else jtoString odds

/-- The spread consensus cell (LiveOdds.tsx line 486):
`c.spreadAvg ? (c.spreadAvg > 0 ? '+' : '') + c.spreadAvg.toFixed(1) : '—'`. -/
def spreadConsensusCell (c : Consensus) : String :=
  if jtruthy c.spreadAvg then
    (if jlt (num 0) c.spreadAvg then "+" else "") ++ jtoFixed1 c.spreadAvg
  else "—"

/-- The total consensus cell (LiveOdds.tsx line 501):
`c.totalAvg ? c.totalAvg.toFixed(1) : '—'`. -/
def totalConsensusCell (c : Consensus) : String :=
  if jtruthy c.totalAvg then jtoFixed1 c.totalAvg else "—"

/-- The moneyline consensus cell (LiveOdds.tsx line 518):
`formatOdds(Math.round(c.mlHomeAvg))` — it has no placeholder branch. -/
def mlConsensusCell (c : Consensus) : String :=
  formatOdds (jround c.mlHomeAvg)

/-! ## Team list filter and sort — AllTeams.tsx lines 144-189 -/

/-- A team record, flattened to the fields `filteredAndSortedTeams` reads
(`season_stats` and `betting_stats` members inlined). -/
structure Team where
  full_name : String
  abbreviation : String
  city : String
  conference : String
  division : String
  win_percentage : ℚ
  net_rating : ℚ
  points_per_game : ℚ
  strength_rating : ℚ
  ats_percentage : ℚ
deriving DecidableEq

/-- The `sortBy` state values (AllTeams.tsx lines 158-181); the `default`
switch branch sorts by `full_name`. -/
inductive SortKey where
  | win_percentage : SortKey
  | net_rating : SortKey
  | points_per_game : SortKey
  | strength_rating : SortKey
  | ats_percentage : SortKey
  | full_name : SortKey
deriving DecidableEq

/-- JS `String.prototype.toLowerCase`, modelled character-wise (the embedded
data is ASCII, where JS and `Char.toLower` agree). -/
def jsToLower (s : String) : String := ⟨s.data.map Char.toLower⟩

/-- JS `String.prototype.includes`: substring containment on the character
sequences. -/
def strIncludes (s q : String) : Bool :=
  decide (q.toList <:+: s.toList)

/-- The search predicate (AllTeams.tsx lines 146-148): any of `full_name`,
`abbreviation`, `city` contains the search term, both sides lowercased. -/
def teamMatchesSearch (searchTerm : String) (t : Team) : Bool :=
  strIncludes (jsToLower t.full_name) (jsToLower searchTerm) ||
  strIncludes (jsToLower t.abbreviation) (jsToLower searchTerm) ||
  strIncludes (jsToLower t.city) (jsToLower searchTerm)

/-- The filter stage (AllTeams.tsx lines 144-154): search AND conference
AND division, each category with the `'All'` sentinel. -/
def teamFilter (searchTerm conf dvsn : String) (ts : List Team) : List Team :=
  ts.filter (fun t =>
    teamMatchesSearch searchTerm t &&
    (conf == "All" || t.conference == conf) &&
    (dvsn == "All" || t.division == dvsn))

/-- The comparator passed to `.sort` (AllTeams.tsx lines 155-188). `lc`
stands for `String.prototype.localeCompare` (a host-supplied comparison);
numeric keys compare by subtraction, with the operand order swapped for
descending order. -/
def teamComparator (lc : String → String → ℚ) (sortBy : SortKey) (asc : Bool)
    (a b : Team) : ℚ :=
  match sortBy with
  | .win_percentage =>
    if asc then a.win_percentage - b.win_percentage else b.win_percentage - a.win_percentage
  | .net_rating =>
    if asc then a.net_rating - b.net_rating else b.net_rating - a.net_rating
  | .points_per_game =>
    if asc then a.points_per_game - b.points_per_game else b.points_per_game - a.points_per_game
  | .strength_rating =>
    if asc then a.strength_rating - b.strength_rating else b.strength_rating - a.strength_rating
  | .ats_percentage =>
    if asc then a.ats_percentage - b.ats_percentage else b.ats_percentage - a.ats_percentage
  | .full_name =>
    if asc then lc a.full_name b.full_name else lc b.full_name a.full_name

/-- Model of `Array.prototype.sort` with a numeric comparator: a stable sort placing
`a` no later than `b` whenever the comparator is nonpositive (the ordering
ECMA-262 guarantees for a consistent comparator). -/
def jsSortBy (c : α → α → ℚ) (l : List α) : List α :=
  l.mergeSort (fun a b => decide (c a b ≤ 0))

/-- The sort stage of `filteredAndSortedTeams`. -/
def sortTeams (lc : String → String → ℚ) (sortBy : SortKey) (asc : Bool)
    (ts : List Team) : List Team :=
  jsSortBy (teamComparator lc sortBy asc) ts

/-- Embedding of `filteredAndSortedTeams` (AllTeams.tsx lines 144-189): filter, then sort. -/
def filteredAndSortedTeams (lc : String → String → ℚ)
    (searchTerm conf dvsn : String) (sortBy : SortKey) (asc : Bool)
    (ts : List Team) : List Team :=
  sortTeams lc sortBy asc (teamFilter searchTerm conf dvsn ts)

/-- The numeric sort-key reader selected by each non-string `sortBy` value. -/
def sortKeyNumField : SortKey → Option (Team → ℚ)
  | .win_percentage => some Team.win_percentage
  | .net_rating => some Team.net_rating
  | .points_per_game => some Team.points_per_game
  | .strength_rating => some Team.strength_rating
  | .ats_percentage => some Team.ats_percentage
  | .full_name => none

/-! ## Concrete records used by the example clauses of the claims -/

/-- Three quotes whose spread lines are −2.5, −3.0, −2.0. -/
def demoSpreadQuotes : List BookQuote :=
  [ { name := "BookA", moneyline := none,
      spread := some { line := some (num (-5/2)), home := none, away := none }, total := none },
    { name := "BookB", moneyline := none,
      spread := some { line := some (num (-3)), home := none, away := none }, total := none },
    { name := "BookC", moneyline := none,
      spread := some { line := some (num (-2)), home := none, away := none }, total := none } ]

/-- Two quotes carrying moneyline-home prices −110 and −105. -/
def demoMlQuotes : List BookQuote :=
  [ { name := "BookA", moneyline := some { home := some (num (-110)), away := none },
      spread := none, total := none },
    { name := "BookB", moneyline := some { home := some (num (-105)), away := none },
      spread := none, total := none } ]

/-- Two quotes whose moneyline-home prices (−100, 100) and spread lines
(−1, 1) legitimately average to zero. -/
def demoZeroQuotes : List BookQuote :=
  [ { name := "BookA", moneyline := some { home := some (num (-100)), away := none },
      spread := some { line := some (num (-1)), home := none, away := none }, total := none },
    { name := "BookB", moneyline := some { home := some (num 100), away := none },
      spread := some { line := some (num 1), home := none, away := none }, total := none } ]

/-- A quote whose spread line carries the JS value NaN. -/
def nanQuote : BookQuote :=
  { name := "BookN", moneyline := none,
    spread := some { line := some nan, home := none, away := none }, total := none }

/-- The Chicago Bulls record used by the search examples. -/
def bullsTeam : Team :=
  { full_name := "Chicago Bulls", abbreviation := "CHI", city := "Chicago",
    conference := "Eastern", division := "Central",
    win_percentage := 1/2, net_rating := 0, points_per_game := 0,
    strength_rating := 0, ats_percentage := 0 }

/-- Three team stubs whose win percentages are 0.3, 0.7, 0.5 in input order. -/
def demoTeams : List Team :=
  [ { full_name := "A", abbreviation := "A", city := "A", conference := "Eastern",
      division := "Central", win_percentage := 3/10, net_rating := 0,
      points_per_game := 0, strength_rating := 0, ats_percentage := 0 },
    { full_name := "B", abbreviation := "B", city := "B", conference := "Eastern",
      division := "Central", win_percentage := 7/10, net_rating := 0,
      points_per_game := 0, strength_rating := 0, ats_percentage := 0 },
    { full_name := "C", abbreviation := "C", city := "C", conference := "Eastern",
      division := "Central", win_percentage := 1/2, net_rating := 0,
      points_per_game := 0, strength_rating := 0, ats_percentage := 0 } ]


theorem jsub_num_num (a b : ℚ) : jsub (num a) (num b) = num (a - b) := by
  simp [jsub, jneg, jadd, sub_eq_add_neg]

theorem jdiv_num_num (a : ℚ) {b : ℚ} (hb : b ≠ 0) :
    jdiv (num a) (num b) = num (a / b) := by
  simp [jdiv, hb]

theorem jsAmerToDecimal_num {a : ℚ} (ha : a ≠ 0) :
    jsAmerToDecimal (num a) = num (amerToDecimal a) := by
  unfold jsAmerToDecimal amerToDecimal
  rcases lt_or_gt_of_ne ha with h | h
  · simp only [jlt, decide_eq_true_eq]
    rw [if_neg (by simpa using not_lt.mpr h.le), if_neg (not_lt.mpr h.le)]
    simp [jabs, jdiv, abs_ne_zero.mpr ha, jadd]
  · simp only [jlt, decide_eq_true_eq]
    rw [if_pos (by simpa using h), if_pos h]
    simp [jdiv, jadd, (by norm_num : (100:ℚ) ≠ 0)]

theorem amerToDecimal_sub_one_pos {a : ℚ} (ha : a ≠ 0) :
    0 < amerToDecimal a - 1 := by
  unfold amerToDecimal
  rcases lt_or_gt_of_ne ha with h | h
  · rw [if_neg (not_lt.mpr h.le)]
    have : 0 < |a| := abs_pos.mpr ha
    have : 0 < 100 / |a| := by positivity
    linarith
  · rw [if_pos h]
    have : 0 < a / 100 := by positivity
    linarith

theorem kelly_prob_parse (p : ℚ) : jdiv (num (100 * p)) (num 100) = num p := by
  rw [jdiv_num_num _ (by norm_num : (100:ℚ) ≠ 0)]
  congr 1
  field_simp

/-- C2: for every valid Kelly input — probability `p ∈ (0,1)`, nonzero numeric
American odds — whose raw Kelly fraction `f = (b·p − (1−p))/b` is strictly
positive, `calculateKelly` publishes `stake_fraction = f × 0.25` (quarter
Kelly), `percentage = stake_fraction × 100` and
`stake_amount = stake_fraction × bankroll`. -/
theorem kelly_quarter_fraction (a p bk : ℚ) (ha : a ≠ 0)
    (hp0 : 0 < p) (hp1 : p < 1) (hf : 0 < rawKellyFraction a p) :
    calculateKelly (num a) (num (100 * p)) (num bk) =
      some { fraction := num (rawKellyFraction a p * (1/4))
             percentage := num (rawKellyFraction a p * (1/4) * 100)
             stake := num (rawKellyFraction a p * (1/4) * bk) } := by
  have hb : amerToDecimal a - 1 ≠ 0 := (amerToDecimal_sub_one_pos ha).ne'
  unfold calculateKelly
  rw [kelly_prob_parse]
  rw [jsAmerToDecimal_num ha]
  simp only [isNaN, jle, jsub_num_num, jmul, jdiv_num_num _ hb,
    Bool.or_false, Bool.false_or, decide_eq_true_eq]
  rw [if_neg (by simp [not_le.mpr hp0, not_le.mpr hp1])]
  have hkf : ((amerToDecimal a - 1) * p - (1 - p)) / (amerToDecimal a - 1) =
      rawKellyFraction a p := rfl
  rw [hkf]
  rw [if_neg (by simp [not_le.mpr hf])]

/-- C3: whenever the raw Kelly expectation `(d−1)·p − (1−p)` is nonpositive,
with `d` the decimal odds derived from the nonzero American input (always
greater than 1), `calculateKelly` publishes the explicit all-zero result —
not an error and not an absent result — and the view flags it as "negative
expectation, do not bet". -/
theorem kelly_negative_expectation_zero (a p bk : ℚ) (ha : a ≠ 0)
    (hp0 : 0 < p) (hp1 : p < 1)
    (hf : (amerToDecimal a - 1) * p - (1 - p) ≤ 0) :
    calculateKelly (num a) (num (100 * p)) (num bk) =
      some { fraction := num 0, percentage := num 0, stake := num 0 } ∧
    kellyShowsDoNotBet (calculateKelly (num a) (num (100 * p)) (num bk)) = true ∧
    1 < amerToDecimal a := by
  have hbpos : 0 < amerToDecimal a - 1 := amerToDecimal_sub_one_pos ha
  have hb : amerToDecimal a - 1 ≠ 0 := hbpos.ne'
  have hrk : rawKellyFraction a p ≤ 0 := by
    unfold rawKellyFraction
    exact div_nonpos_of_nonpos_of_nonneg hf hbpos.le
  have hmain : calculateKelly (num a) (num (100 * p)) (num bk) =
      some { fraction := num 0, percentage := num 0, stake := num 0 } := by
    unfold calculateKelly
    rw [kelly_prob_parse]
    rw [jsAmerToDecimal_num ha]
    simp only [isNaN, jle, jsub_num_num, jmul, jdiv_num_num _ hb,
      Bool.or_false, Bool.false_or, decide_eq_true_eq]
    rw [if_neg (by simp [not_le.mpr hp0, not_le.mpr hp1])]
    have hkf : ((amerToDecimal a - 1) * p - (1 - p)) / (amerToDecimal a - 1) =
        rawKellyFraction a p := rfl
    rw [hkf]
    rw [if_pos (by simp [hrk])]
  refine ⟨hmain, ?_, by linarith⟩
  rw [hmain]
  simp [kellyShowsDoNotBet]

/-- C4: the American-to-decimal conversion used by `calculateKelly` maps
`a > 0` to `a/100 + 1` and `a < 0` to `100/|a| + 1`; in particular `+150`
converts to `2.5` and `−110` to `21/11 ≈ 1.909`. -/
theorem american_odds_conversion :
    (∀ a : ℚ, 0 < a → jsAmerToDecimal (num a) = num (a / 100 + 1)) ∧
    (∀ a : ℚ, a < 0 → jsAmerToDecimal (num a) = num (100 / |a| + 1)) ∧
    jsAmerToDecimal (num 150) = num (5/2) ∧
    jsAmerToDecimal (num (-110)) = num (21/11) ∧
    |(21 : ℚ)/11 - 1909/1000| < 1/1000 := by
  have habs : |(21 : ℚ)/11 - 1909/1000| < 1/1000 := by
    rw [show (21:ℚ)/11 - 1909/1000 = 1/11000 by norm_num,
      abs_of_pos (by norm_num : (0:ℚ) < 1/11000)]
    norm_num
  refine ⟨?_, ?_, ?_, ?_, habs⟩
  · intro a h
    rw [jsAmerToDecimal_num h.ne', amerToDecimal, if_pos h]
  · intro a h
    rw [jsAmerToDecimal_num h.ne, amerToDecimal, if_neg (not_lt.mpr h.le)]
  · rw [jsAmerToDecimal_num (by norm_num : (150:ℚ) ≠ 0), amerToDecimal]
    norm_num
  · rw [jsAmerToDecimal_num (by norm_num : (-110:ℚ) ≠ 0), amerToDecimal]
    norm_num

/-- C5: when either parsed input is NaN (non-numeric text) or the
probability is outside `(0,1)`, `calculateKelly` declines to produce a
result (`none`, rendered as "no result"); the embedded function is total,
so it never throws, and since no result is published for such inputs, no
NaN result is published. -/
theorem kelly_invalid_input_declines (odds probRaw bk : JSNum)
    (h : odds.isNaN = true ∨ probRaw.isNaN = true ∨
      ¬ (jlt (num 0) (jdiv probRaw (num 100)) = true ∧
         jlt (jdiv probRaw (num 100)) (num 1) = true)) :
    calculateKelly odds probRaw bk = none := by
  have hguard : (odds.isNaN || (jdiv probRaw (num 100)).isNaN ||
      jle (jdiv probRaw (num 100)) (num 0) ||
      jle (num 1) (jdiv probRaw (num 100))) = true := by
    rcases h with h | h | h
    · simp [h]
    · have : probRaw = nan := by cases probRaw <;> simp_all [isNaN]
      subst this
      simp [jdiv, isNaN]
    · rcases hp : jdiv probRaw (num 100) with _ | s | q
      · simp [isNaN]
      · cases s <;> simp [jle]
      · rw [hp] at h
        simp only [jlt, decide_eq_true_eq] at h
        push_neg at h
        rcases lt_or_le 0 q with h0 | h0
        · have h1 : 1 ≤ q := h h0
          simp [jle, h1]
        · simp [jle, h0]
  unfold calculateKelly
  simp [hguard]

/-- C10: with an odds input that parses to exactly 0 and any valid
probability, `calculateKelly` neither declines nor returns the zero
do-not-bet result: `100/|0|` yields Infinity, the raw Kelly fraction is
`Infinity/Infinity = NaN`, the `f ≤ 0` branch is not taken, and the
published fraction, percentage and stake are all NaN. -/
theorem kelly_zero_odds_publishes_nan (p bk : ℚ) (hp0 : 0 < p) (hp1 : p < 1) :
    calculateKelly (num 0) (num (100 * p)) (num bk) =
      some { fraction := nan, percentage := nan, stake := nan } := by
  unfold calculateKelly
  rw [kelly_prob_parse]
  have hconv : jsAmerToDecimal (num 0) = inf true := by
    simp [jsAmerToDecimal, jlt, jabs, jdiv, jadd]
  rw [hconv]
  simp [isNaN, jle, jsub, jneg, jadd, jmul, jdiv,
    not_le.mpr hp0, not_le.mpr hp1, hp0.ne', hp0]

/-- C2 witness: quarter-Kelly at odds −110, probability 55%. -/
theorem kelly_quarter_fraction_witness :
    calculateKelly (num (-110)) (num (100 * (11/20))) (num 1000) =
      some { fraction := num (rawKellyFraction (-110) (11/20) * (1/4))
             percentage := num (rawKellyFraction (-110) (11/20) * (1/4) * 100)
             stake := num (rawKellyFraction (-110) (11/20) * (1/4) * 1000) } :=
  kelly_quarter_fraction (-110) (11/20) 1000 (by norm_num) (by norm_num)
    (by norm_num) (by norm_num [rawKellyFraction, amerToDecimal])

/-- C3 witness: odds −110 at probability 50% is a losing proposition. -/
theorem kelly_negative_expectation_zero_witness :
    calculateKelly (num (-110)) (num (100 * (1/2))) (num 1000) =
      some { fraction := num 0, percentage := num 0, stake := num 0 } ∧
    kellyShowsDoNotBet (calculateKelly (num (-110)) (num (100 * (1/2))) (num 1000)) = true ∧
    1 < amerToDecimal (-110) :=
  kelly_negative_expectation_zero (-110) (1/2) 1000 (by norm_num) (by norm_num)
    (by norm_num) (by norm_num [amerToDecimal])

/-- C4 witness: the positive branch applied to +150. -/
theorem american_odds_conversion_witness :
    jsAmerToDecimal (num 150) = num (150 / 100 + 1) :=
  american_odds_conversion.1 150 (by norm_num)

/-- C5 witness: a probability input of 150% is declined. -/
theorem kelly_invalid_input_declines_witness :
    calculateKelly (num 2) (num 150) (num 1000) = none :=
  kelly_invalid_input_declines (num 2) (num 150) (num 1000)
    (Or.inr (Or.inr (by norm_num [JSNum.jdiv, JSNum.jlt])))

/-- C10 witness: odds 0 at probability 50% publishes NaN. -/
theorem kelly_zero_odds_publishes_nan_witness :
    calculateKelly (num 0) (num (100 * (1/2))) (num 1000) =
      some { fraction := nan, percentage := nan, stake := nan } :=
  kelly_zero_odds_publishes_nan (1/2) 1000 (by norm_num) (by norm_num)

theorem foldl_jadd_num (qs : List ℚ) (c : ℚ) :
    (qs.map num).foldl jadd (num c) = num (c + qs.sum) := by
  induction qs generalizing c with
  | nil => simp
  | cons q rest ih => simp [jadd, ih, add_assoc]

theorem jsAvg_map_num (qs : List ℚ) (h : qs ≠ []) :
    jsAvg (qs.map num) = num (qs.sum / qs.length) := by
  unfold jsAvg
  rw [if_pos (by simpa using h)]
  rw [List.length_map, foldl_jadd_num, zero_add]
  have hl : ((qs.length : ℚ)) ≠ 0 := by
    have := List.length_pos.mpr h
    positivity
  rw [jdiv_num_num _ hl]

theorem jmin2_num_num (m x : ℚ) : jmin2 (num m) (num x) = num (min m x) := by
  simp only [jmin2, isNaN, Bool.or_self, Bool.false_or, jlt, if_false]
  rcases lt_or_le x m with h | h
  · simp [h, min_eq_right h.le]
  · simp [not_lt.mpr h, min_eq_left h]

theorem jmax2_num_num (m x : ℚ) : jmax2 (num m) (num x) = num (max m x) := by
  simp only [jmax2, isNaN, Bool.or_self, Bool.false_or, jlt, if_false]
  rcases lt_or_le m x with h | h
  · simp [h, max_eq_right h.le]
  · simp [not_lt.mpr h, max_eq_left h]

theorem foldl_jmin2_num (qs : List ℚ) (m : ℚ) :
    (qs.map num).foldl jmin2 (num m) = num (qs.foldl min m) := by
  induction qs generalizing m with
  | nil => simp
  | cons q rest ih => simp [jmin2_num_num, ih]

theorem foldl_jmax2_num (qs : List ℚ) (m : ℚ) :
    (qs.map num).foldl jmax2 (num m) = num (qs.foldl max m) := by
  induction qs generalizing m with
  | nil => simp
  | cons q rest ih => simp [jmax2_num_num, ih]

theorem foldl_min_le (qs : List ℚ) (m : ℚ) :
    qs.foldl min m ≤ m ∧ ∀ x ∈ qs, qs.foldl min m ≤ x := by
  induction qs generalizing m with
  | nil => simp
  | cons q rest ih =>
    refine ⟨le_trans (ih (min m q)).1 (min_le_left m q), ?_⟩
    intro x hx
    rcases List.mem_cons.mp hx with rfl | hx
    · exact le_trans (ih (min m x)).1 (min_le_right m x)
    · exact (ih (min m q)).2 x hx

theorem foldl_max_ge (qs : List ℚ) (m : ℚ) :
    m ≤ qs.foldl max m ∧ ∀ x ∈ qs, x ≤ qs.foldl max m := by
  induction qs generalizing m with
  | nil => simp
  | cons q rest ih =>
    refine ⟨le_trans (le_max_left m q) (ih (max m q)).1, ?_⟩
    intro x hx
    rcases List.mem_cons.mp hx with rfl | hx
    · exact le_trans (le_max_right m x) (ih (max m x)).1
    · exact (ih (max m q)).2 x hx

theorem foldl_min_mem (qs : List ℚ) (m : ℚ) :
    qs.foldl min m = m ∨ qs.foldl min m ∈ qs := by
  induction qs generalizing m with
  | nil => simp
  | cons q rest ih =>
    rcases ih (min m q) with h | h
    · rcases min_choice m q with hm | hm
      · left
        rw [List.foldl_cons, h, hm]
      · right
        rw [List.foldl_cons, h, hm]
        exact List.mem_cons_self q rest
    · right
      exact List.mem_cons_of_mem q h

theorem foldl_max_mem (qs : List ℚ) (m : ℚ) :
    qs.foldl max m = m ∨ qs.foldl max m ∈ qs := by
  induction qs generalizing m with
  | nil => simp
  | cons q rest ih =>
    rcases ih (max m q) with h | h
    · rcases max_choice m q with hm | hm
      · left
        rw [List.foldl_cons, h, hm]
      · right
        rw [List.foldl_cons, h, hm]
        exact List.mem_cons_self q rest
    · right
      exact List.mem_cons_of_mem q h

theorem jsRange_map_num (qs : List ℚ) (h : qs ≠ []) :
    ∃ m M, jsRange (qs.map num) = some (num m, num M) ∧
      m ∈ qs ∧ M ∈ qs ∧ ∀ x ∈ qs, m ≤ x ∧ x ≤ M := by
  obtain ⟨q, rest, rfl⟩ := List.exists_cons_of_ne_nil h
  refine ⟨(rest.foldl min q), (rest.foldl max q), ?_, ?_, ?_, ?_⟩
  · unfold jsRange jminList jmaxList
    rw [if_pos (by simp)]
    simp only [List.map_cons, List.foldl_cons]
    have h1 : jmin2 (inf true) (num q) = num q := by simp [jmin2, isNaN, jlt]
    have h2 : jmax2 (inf false) (num q) = num q := by simp [jmax2, isNaN, jlt]
    rw [h1, h2, foldl_jmin2_num, foldl_jmax2_num]
  · rcases foldl_min_mem rest q with h | h
    · rw [h]; exact List.mem_cons_self q rest
    · exact List.mem_cons_of_mem q h
  · rcases foldl_max_mem rest q with h | h
    · rw [h]; exact List.mem_cons_self q rest
    · exact List.mem_cons_of_mem q h
  · intro x hx
    rcases List.mem_cons.mp hx with rfl | hx
    · exact ⟨(foldl_min_le rest x).1, (foldl_max_ge rest x).1⟩
    · exact ⟨(foldl_min_le rest q).2 x hx, (foldl_max_ge rest q).2 x hx⟩

/-- C6 counterexample: for the moneyline-home market the value set of
`demoMlQuotes` is non-empty, yet the object returned by `getConsensus`
carries no moneyline range at all, so the range is absent despite a
non-empty value set. -/
theorem consensus_ml_range_missing_cex :
    mlHomeVals demoMlQuotes = [num (-110), num (-105)] ∧
    consensusRangeOf (getConsensus demoMlQuotes) Market.mlHome = none :=
  ⟨rfl, rfl⟩

theorem consensus_spreadVals_demo :
    spreadVals demoSpreadQuotes = [(-5/2 : ℚ), -3, -2].map num := rfl

/-- C6 (amended): for the spread and total markets with a non-empty value
set, `getConsensus` returns `average = sum/count` and `range = [min, max]`,
and the range is absent exactly when the value set is empty; the
moneyline-home market receives an average only and never a range. Spread
lines −2.5, −3.0, −2.0 yield average −2.5 and range [−3.0, −2.0]. -/
theorem consensus_avg_range_amended :
    (∀ (bs : List BookQuote) (qs : List ℚ), spreadVals bs = qs.map num → qs ≠ [] →
      (getConsensus bs).spreadAvg = num (qs.sum / qs.length) ∧
      ∃ m M, (getConsensus bs).spreadRange = some (num m, num M) ∧
        m ∈ qs ∧ M ∈ qs ∧ ∀ x ∈ qs, m ≤ x ∧ x ≤ M) ∧
    (∀ (bs : List BookQuote) (qs : List ℚ), totalVals bs = qs.map num → qs ≠ [] →
      (getConsensus bs).totalAvg = num (qs.sum / qs.length) ∧
      ∃ m M, (getConsensus bs).totalRange = some (num m, num M) ∧
        m ∈ qs ∧ M ∈ qs ∧ ∀ x ∈ qs, m ≤ x ∧ x ≤ M) ∧
    (∀ (bs : List BookQuote) (qs : List ℚ), mlHomeVals bs = qs.map num → qs ≠ [] →
      (getConsensus bs).mlHomeAvg = num (qs.sum / qs.length) ∧
      consensusRangeOf (getConsensus bs) Market.mlHome = none) ∧
    (∀ bs : List BookQuote,
      ((getConsensus bs).spreadRange = none ↔ spreadVals bs = []) ∧
      ((getConsensus bs).totalRange = none ↔ totalVals bs = [])) ∧
    ((getConsensus demoSpreadQuotes).spreadAvg = num (-5/2) ∧
      (getConsensus demoSpreadQuotes).spreadRange = some (num (-3), num (-2))) := by
  have havg : ∀ (vals : List JSNum) (qs : List ℚ), vals = qs.map num → qs ≠ [] →
      jsAvg vals = num (qs.sum / qs.length) := by
    intro vals qs h hne
    rw [h, jsAvg_map_num qs hne]
  have hrange : ∀ (vals : List JSNum) (qs : List ℚ), vals = qs.map num → qs ≠ [] →
      ∃ m M, jsRange vals = some (num m, num M) ∧
        m ∈ qs ∧ M ∈ qs ∧ ∀ x ∈ qs, m ≤ x ∧ x ≤ M := by
    intro vals qs h hne
    rw [h]
    exact jsRange_map_num qs hne
  have hnone : ∀ vals : List JSNum, jsRange vals = none ↔ vals = [] := by
    intro vals
    unfold jsRange
    split_ifs with h
    · simp_all
    · simp_all [List.length_eq_zero]
  refine ⟨fun bs qs h hne => ⟨havg _ qs h hne, hrange _ qs h hne⟩,
          fun bs qs h hne => ⟨havg _ qs h hne, hrange _ qs h hne⟩,
          fun bs qs h hne => ⟨havg _ qs h hne, rfl⟩,
          fun bs => ⟨hnone _, hnone _⟩, ?_, ?_⟩
  · rw [show (getConsensus demoSpreadQuotes).spreadAvg = jsAvg (spreadVals demoSpreadQuotes) from rfl,
      consensus_spreadVals_demo, jsAvg_map_num _ (by simp)]
    norm_num
  · rw [show (getConsensus demoSpreadQuotes).spreadRange = jsRange (spreadVals demoSpreadQuotes) from rfl,
      consensus_spreadVals_demo]
    norm_num [jsRange, jminList, jmaxList, jmin2, jmax2, jlt, isNaN]

/-- C1 counterexample: the "no data" average of `getConsensus` is the bare
number 0, equal to the legitimate zero average of `demoZeroQuotes`, and the
moneyline cell renders the numeric string "0" for the empty quote list
instead of a placeholder. -/
theorem consensus_zero_sentinel_cex :
    (getConsensus []).mlHomeAvg = num 0 ∧
    (getConsensus demoZeroQuotes).mlHomeAvg = num 0 ∧
    mlConsensusCell (getConsensus []) = "0" ∧
    mlConsensusCell (getConsensus []) ≠ "—" ∧
    (getConsensus []).spreadAvg = num 0 ∧
    (getConsensus demoZeroQuotes).spreadAvg = num 0 := by
  have hcell : mlConsensusCell (getConsensus []) = "0" := by
    have h0 : (getConsensus []).mlHomeAvg = num 0 := rfl
    rw [mlConsensusCell, h0]
    norm_num [jround, formatOdds, jlt, jtoString]
    decide
  have hml : (getConsensus demoZeroQuotes).mlHomeAvg = num 0 := by
    rw [show (getConsensus demoZeroQuotes).mlHomeAvg = jsAvg (mlHomeVals demoZeroQuotes) from rfl,
      show mlHomeVals demoZeroQuotes = [(-100 : ℚ), 100].map num from rfl,
      jsAvg_map_num _ (by simp)]
    norm_num
  have hsp : (getConsensus demoZeroQuotes).spreadAvg = num 0 := by
    rw [show (getConsensus demoZeroQuotes).spreadAvg = jsAvg (spreadVals demoZeroQuotes) from rfl,
      show spreadVals demoZeroQuotes = [(-1 : ℚ), 1].map num from rfl,
      jsAvg_map_num _ (by simp)]
    norm_num
  exact ⟨rfl, hml, hcell, by rw [hcell]; decide, rfl, hsp⟩

/-- C1 (amended): for a market with no numeric values `getConsensus`
returns average `0` — a bare number, not distinguishable from a legitimate
zero average — and no range; the spread and total cells render the
placeholder "—" precisely because the average is falsy (hence also for a
legitimate zero average), while the moneyline cell always renders a numeric
string, "0" in the no-data case. -/
theorem consensus_zero_sentinel_amended (bs : List BookQuote) :
    (spreadVals bs = [] →
      (getConsensus bs).spreadAvg = num 0 ∧ (getConsensus bs).spreadRange = none ∧
      spreadConsensusCell (getConsensus bs) = "—") ∧
    (totalVals bs = [] →
      (getConsensus bs).totalAvg = num 0 ∧ (getConsensus bs).totalRange = none ∧
      totalConsensusCell (getConsensus bs) = "—") ∧
    (mlHomeVals bs = [] →
      (getConsensus bs).mlHomeAvg = num 0 ∧ mlConsensusCell (getConsensus bs) = "0") ∧
    ((getConsensus bs).spreadAvg = num 0 → spreadConsensusCell (getConsensus bs) = "—") ∧
    ((getConsensus bs).totalAvg = num 0 → totalConsensusCell (getConsensus bs) = "—") := by
  have havg : ∀ vals : List JSNum, vals = [] → jsAvg vals = num 0 := by
    intro vals h
    rw [h]
    rfl
  have hrange : ∀ vals : List JSNum, vals = [] → jsRange vals = none := by
    intro vals h
    rw [h]
    rfl
  have hspcell : (getConsensus bs).spreadAvg = num 0 → spreadConsensusCell (getConsensus bs) = "—" := by
    intro h
    rw [spreadConsensusCell, h]
    simp [jtruthy]
  have htcell : (getConsensus bs).totalAvg = num 0 → totalConsensusCell (getConsensus bs) = "—" := by
    intro h
    rw [totalConsensusCell, h]
    simp [jtruthy]
  refine ⟨fun h => ?_, fun h => ?_, fun h => ?_, hspcell, htcell⟩
  · have ha : (getConsensus bs).spreadAvg = num 0 := havg _ h
    exact ⟨ha, hrange _ h, hspcell ha⟩
  · have ha : (getConsensus bs).totalAvg = num 0 := havg _ h
    exact ⟨ha, hrange _ h, htcell ha⟩
  · have ha : (getConsensus bs).mlHomeAvg = num 0 := havg _ h
    refine ⟨ha, ?_⟩
    rw [mlConsensusCell, ha]
    norm_num [jround, formatOdds, jlt, jtoString]
    decide

/-- C7 counterexample: a quote whose spread line is NaN — a value of JS
type number that is not finite — is kept by the `typeof`-based filter, so
the spread value set is `[NaN]` rather than empty and the average becomes
NaN. -/
theorem consensus_nan_kept_cex :
    spreadVals [nanQuote] = [nan] ∧
    (getConsensus [nanQuote]).spreadAvg = nan := ⟨rfl, rfl⟩

/-- C7 (amended): per market independently, the value set `getConsensus`
aggregates contains exactly the quotes whose field carries a value of JS
type number — including non-finite values such as NaN, which are not
excluded; quotes missing the field are excluded and never coerced to zero
(0 appears in a value set only if some quote actually quotes 0). -/
theorem consensus_filter_amended (bs : List BookQuote) :
    (spreadVals bs = bs.filterMap (fun b => b.spread.bind SpreadQ.line) ∧
     totalVals bs = bs.filterMap (fun b => b.total.bind TotalQ.line) ∧
     mlHomeVals bs = bs.filterMap (fun b => b.moneyline.bind MoneylineQ.home)) ∧
    (∀ x : JSNum,
      (x ∈ spreadVals bs ↔ ∃ b ∈ bs, b.spread.bind SpreadQ.line = some x) ∧
      (x ∈ totalVals bs ↔ ∃ b ∈ bs, b.total.bind TotalQ.line = some x) ∧
      (x ∈ mlHomeVals bs ↔ ∃ b ∈ bs, b.moneyline.bind MoneylineQ.home = some x)) ∧
    (num 0 ∈ spreadVals bs ↔ ∃ b ∈ bs, b.spread.bind SpreadQ.line = some (num 0)) ∧
    (nan ∈ spreadVals bs ↔ ∃ b ∈ bs, b.spread.bind SpreadQ.line = some nan) := by
  refine ⟨⟨?_, ?_, ?_⟩, fun x => ⟨?_, ?_, ?_⟩, ?_, ?_⟩ <;>
    simp [spreadVals, totalVals, mlHomeVals, List.filterMap_map, Function.comp,
      List.mem_filterMap]

/-- C8: the text search keeps exactly the records where at least one of
`full_name`, `abbreviation`, `city` contains the query as a
case-insensitive substring: with both category filters at "All" the filter
stage is exactly the search filter, a match means lowercase-substring
containment in one of the three fields, "bul" matches the Chicago Bulls
record, and two queries equal up to case filter identically. -/
theorem team_search_spec :
    (∀ (ts : List Team) (q : String),
      teamFilter q "All" "All" ts = ts.filter (fun t => teamMatchesSearch q t)) ∧
    (∀ (t : Team) (q : String),
      teamMatchesSearch q t = true ↔
        ((jsToLower q).toList <:+: (jsToLower t.full_name).toList ∨
         (jsToLower q).toList <:+: (jsToLower t.abbreviation).toList ∨
         (jsToLower q).toList <:+: (jsToLower t.city).toList)) ∧
    teamMatchesSearch "bul" bullsTeam = true ∧
    (∀ (ts : List Team) (q1 q2 : String), jsToLower q1 = jsToLower q2 →
      teamFilter q1 "All" "All" ts = teamFilter q2 "All" "All" ts) := by
  refine ⟨?_, ?_, by decide, ?_⟩
  · intro ts q
    simp [teamFilter]
  · intro t q
    simp [teamMatchesSearch, strIncludes, or_assoc]
  · intro ts q1 q2 h
    unfold teamFilter
    congr 1
    funext t
    unfold teamMatchesSearch
    rw [h]

/-- C8 witness: the queries "BULLS" and "bulls" filter identically. -/
theorem team_search_spec_witness :
    teamFilter "BULLS" "All" "All" [bullsTeam] = teamFilter "bulls" "All" "All" [bullsTeam] :=
  team_search_spec.2.2.2 [bullsTeam] "BULLS" "bulls" (by decide)

theorem mergeSort_filter_stable {α : Type} {le : α → α → Bool}
    (htrans : ∀ a b c, le a b = true → le b c = true → le a c = true)
    (htotal : ∀ a b, (le a b || le b a) = true)
    (p : α → Bool) (hp : ∀ a b, p a = true → p b = true → le a b = true)
    (l : List α) :
    (l.mergeSort le).filter p = l.filter p := by
  have hpair : (l.filter p).Pairwise (fun a b => le a b = true) := by
    apply List.pairwise_of_forall_mem_list
    intro a ha b hb
    exact hp a b (List.of_mem_filter ha) (List.of_mem_filter hb)
  have hsub : List.Sublist (l.filter p) (l.mergeSort le) :=
    List.sublist_mergeSort htrans htotal hpair (List.filter_sublist l)
  have hsub2 : List.Sublist (l.filter p) ((l.mergeSort le).filter p) := by
    have h2 := hsub.filter p
    rwa [List.filter_filter, (by funext a; simp : (fun a => p a && p a) = p)] at h2
  have hlen : ((l.mergeSort le).filter p).length = (l.filter p).length :=
    ((List.mergeSort_perm l le).filter p).length_eq
  exact (hsub2.eq_of_length hlen.symm).symm

theorem teamComparator_num (sk : SortKey) (key : Team → ℚ)
    (h : sortKeyNumField sk = some key) (lc : String → String → ℚ)
    (asc : Bool) (a b : Team) :
    teamComparator lc sk asc a b = if asc then key a - key b else key b - key a := by
  cases sk <;> simp_all [sortKeyNumField, teamComparator]

/-- C9: for every team list, sort key and direction, the sort is a
permutation ordered by the key in the chosen direction — numeric keys
numerically, the string key by the locale comparison (any transitive,
total comparison standing for `localeCompare`) — and it is stable:
records with equal sort keys keep their input order, for the numeric keys
and for the string key alike; win percentages 0.3, 0.7, 0.5 sorted
descending yield 0.7, 0.5, 0.3. -/
theorem team_sort_spec :
    (∀ (sk : SortKey) (key : Team → ℚ), sortKeyNumField sk = some key →
      ∀ (lc : String → String → ℚ) (asc : Bool) (ts : List Team),
        (sortTeams lc sk asc ts).Perm ts ∧
        (sortTeams lc sk asc ts).Pairwise
          (fun a b => if asc then key a ≤ key b else key b ≤ key a) ∧
        ∀ k : ℚ, (sortTeams lc sk asc ts).filter (fun t => key t == k) =
          ts.filter (fun t => key t == k)) ∧
    (∀ (lc : String → String → ℚ),
      (∀ s t u, lc s t ≤ 0 → lc t u ≤ 0 → lc s u ≤ 0) →
      (∀ s t, lc s t ≤ 0 ∨ lc t s ≤ 0) →
      ∀ (asc : Bool) (ts : List Team),
        (sortTeams lc SortKey.full_name asc ts).Perm ts ∧
        (sortTeams lc SortKey.full_name asc ts).Pairwise
          (fun a b => if asc then lc a.full_name b.full_name ≤ 0
                      else lc b.full_name a.full_name ≤ 0) ∧
        ∀ nm : String,
          (sortTeams lc SortKey.full_name asc ts).filter (fun t => t.full_name == nm) =
            ts.filter (fun t => t.full_name == nm)) ∧
    ((sortTeams (fun _ _ => 0) SortKey.win_percentage false demoTeams).map
        (fun t => t.win_percentage) = [7/10, 1/2, 3/10]) := by
  have part1 : ∀ (sk : SortKey) (key : Team → ℚ), sortKeyNumField sk = some key →
      ∀ (lc : String → String → ℚ) (asc : Bool) (ts : List Team),
        (sortTeams lc sk asc ts).Perm ts ∧
        (sortTeams lc sk asc ts).Pairwise
          (fun a b => if asc then key a ≤ key b else key b ≤ key a) ∧
        ∀ k : ℚ, (sortTeams lc sk asc ts).filter (fun t => key t == k) =
          ts.filter (fun t => key t == k) := by
    intro sk key h lc asc ts
    have hle : ∀ a b : Team,
        (decide (teamComparator lc sk asc a b ≤ 0) = true) ↔
        (if asc then key a ≤ key b else key b ≤ key a) := by
      intro a b
      rw [teamComparator_num sk key h]
      cases asc <;> simp [sub_nonpos]
    have htrans : ∀ a b c : Team,
        decide (teamComparator lc sk asc a b ≤ 0) = true →
        decide (teamComparator lc sk asc b c ≤ 0) = true →
        decide (teamComparator lc sk asc a c ≤ 0) = true := by
      intro a b c hab hbc
      rw [hle] at hab hbc ⊢
      cases asc <;> simp_all <;> linarith
    have htotal : ∀ a b : Team,
        (decide (teamComparator lc sk asc a b ≤ 0) ||
         decide (teamComparator lc sk asc b a ≤ 0)) = true := by
      intro a b
      rcases le_total (key a) (key b) with h1 | h1 <;>
        cases asc <;> simp [hle] <;> tauto
    refine ⟨List.mergeSort_perm ts _, ?_, ?_⟩
    · have hs := List.sorted_mergeSort htrans htotal ts
      exact hs.imp (fun hab => (hle _ _).mp hab)
    · intro k
      apply mergeSort_filter_stable htrans htotal
      intro a b ha hb
      have hka : key a = k := by simpa using ha
      have hkb : key b = k := by simpa using hb
      rw [hle, hka, hkb]
      cases asc <;> simp
  have part2 : ∀ (lc : String → String → ℚ),
      (∀ s t u, lc s t ≤ 0 → lc t u ≤ 0 → lc s u ≤ 0) →
      (∀ s t, lc s t ≤ 0 ∨ lc t s ≤ 0) →
      ∀ (asc : Bool) (ts : List Team),
        (sortTeams lc SortKey.full_name asc ts).Perm ts ∧
        (sortTeams lc SortKey.full_name asc ts).Pairwise
          (fun a b => if asc then lc a.full_name b.full_name ≤ 0
                      else lc b.full_name a.full_name ≤ 0) ∧
        ∀ nm : String,
          (sortTeams lc SortKey.full_name asc ts).filter (fun t => t.full_name == nm) =
            ts.filter (fun t => t.full_name == nm) := by
    intro lc htr hto asc ts
    have hle : ∀ a b : Team,
        (decide (teamComparator lc SortKey.full_name asc a b ≤ 0) = true) ↔
        (if asc then lc a.full_name b.full_name ≤ 0
         else lc b.full_name a.full_name ≤ 0) := by
      intro a b
      cases asc <;> simp [teamComparator]
    have htrans : ∀ a b c : Team,
        decide (teamComparator lc SortKey.full_name asc a b ≤ 0) = true →
        decide (teamComparator lc SortKey.full_name asc b c ≤ 0) = true →
        decide (teamComparator lc SortKey.full_name asc a c ≤ 0) = true := by
      intro a b c hab hbc
      rw [hle] at hab hbc ⊢
      cases asc <;> simp_all <;> exact htr _ _ _ (by assumption) (by assumption)
    have htotal : ∀ a b : Team,
        (decide (teamComparator lc SortKey.full_name asc a b ≤ 0) ||
         decide (teamComparator lc SortKey.full_name asc b a ≤ 0)) = true := by
      intro a b
      rcases hto a.full_name b.full_name with h1 | h1 <;>
        cases asc <;> simp [hle] <;> tauto
    refine ⟨List.mergeSort_perm ts _, ?_, ?_⟩
    · have hs := List.sorted_mergeSort htrans htotal ts
      exact hs.imp (fun hab => (hle _ _).mp hab)
    · intro nm
      apply mergeSort_filter_stable htrans htotal
      intro a b ha hb
      have hna : a.full_name = nm := by simpa using ha
      have hnb : b.full_name = nm := by simpa using hb
      have hrefl : lc nm nm ≤ 0 := by
        rcases hto nm nm with h1 | h1 <;> exact h1
      rw [hle]
      cases asc <;> simp [hna, hnb, hrefl]
  refine ⟨part1, part2, ?_⟩
  obtain ⟨hperm, hpair, -⟩ :=
    part1 SortKey.win_percentage Team.win_percentage rfl (fun _ _ => 0) false demoTeams
  have hmperm : ((sortTeams (fun _ _ => 0) SortKey.win_percentage false demoTeams).map
      (fun t => t.win_percentage)).Perm [3/10, 7/10, 1/2] := by
    have := hperm.map (fun t : Team => t.win_percentage)
    simpa [demoTeams] using this
  have hmpair : ((sortTeams (fun _ _ => 0) SortKey.win_percentage false demoTeams).map
      (fun t => t.win_percentage)).Pairwise (fun x y : ℚ => y ≤ x) := by
    refine List.Pairwise.map _ ?_ hpair
    intro a b hab
    simpa using hab
  haveI : IsAntisymm ℚ (fun x y : ℚ => y ≤ x) := ⟨fun a b h1 h2 => le_antisymm h2 h1⟩
  have hp2 : ([3/10, 7/10, 1/2] : List ℚ).Perm [7/10, 1/2, 3/10] := by
    refine (List.Perm.swap (7/10 : ℚ) (3/10) [1/2]).trans ?_
    exact List.Perm.cons (7/10 : ℚ) (List.Perm.swap (1/2 : ℚ) (3/10) [])
  have htpair : ([7/10, 1/2, 3/10] : List ℚ).Pairwise (fun x y : ℚ => y ≤ x) := by
    norm_num [List.pairwise_cons]
  exact List.eq_of_perm_of_sorted (hmperm.trans hp2) hmpair htpair

/-- C9 witness: the descending win-percentage sort permutes the demo list. -/
theorem team_sort_spec_witness :
    (sortTeams (fun _ _ => 0) SortKey.win_percentage false demoTeams).Perm demoTeams :=
  (team_sort_spec.1 SortKey.win_percentage Team.win_percentage rfl
    (fun _ _ => 0) false demoTeams).1

/-- C1 witness: the amended statement applied to the empty quote list. -/
theorem consensus_zero_sentinel_amended_witness :
    (getConsensus []).spreadAvg = num 0 ∧ (getConsensus []).spreadRange = none ∧
    spreadConsensusCell (getConsensus []) = "—" :=
  (consensus_zero_sentinel_amended []).1 rfl

/-- C6 witness: the amended statement applied to the demo spread quotes. -/
theorem consensus_avg_range_amended_witness :
    (getConsensus demoSpreadQuotes).spreadAvg =
      num (([(-5/2 : ℚ), -3, -2].sum) / ([(-5/2 : ℚ), -3, -2].length)) ∧
    ∃ m M, (getConsensus demoSpreadQuotes).spreadRange = some (num m, num M) ∧
      m ∈ [(-5/2 : ℚ), -3, -2] ∧ M ∈ [(-5/2 : ℚ), -3, -2] ∧
      ∀ x ∈ [(-5/2 : ℚ), -3, -2], m ≤ x ∧ x ≤ M :=
  consensus_avg_range_amended.1 demoSpreadQuotes [(-5/2 : ℚ), -3, -2] rfl (by simp)

end NBA
